import Mathlib

/-!
Verification of the MarketPress signal-computation and editorial-ranking
pipeline (src/signals.py, src/layout.py, src/data_normalization.py and the
hex-cell variants) against its natural-language specification.

Tables are shallowly embedded as lists of records; a pandas column holding
NaN/None is an `Option ℚ` field (`none` = missing/NaN).  The floating-point
functions that produce irrational values (numpy's `std` and `exp`) are
abstracted as function parameters where their value is never inspected by a
property, and as `Real.exp` where a property (monotonicity) depends on them.
-/

/-- Option-lifted subtraction: pandas arithmetic on columns propagates NaN,
so the difference is defined only when both operands are. -/
def osub (a b : Option ℚ) : Option ℚ :=
  match a, b with
  | some x, some y => some (x - y)
  | _, _ => none

/-- Maximum of a column of rationals, with 0 for the empty column.  Every use
in the source guards the result with a strict positivity test before dividing,
so folding from 0 is extensionally faithful to pandas `.max()` there. -/
def colMax (l : List ℚ) : ℚ := l.foldr max 0

/-- Descending sort by a rational-valued key.  `List.insertionSort` with this
relation is a stable descending sort, matching pandas `nlargest` with its
default `keep=first` tie policy. -/
def sortDesc {α : Type} (f : α → ℚ) (l : List α) : List α :=
  List.insertionSort (fun a b => f b ≤ f a) l

/-- Raw market record as delivered by the data source (all fields may be
absent; integer cents are carried as rationals). -/
structure RawMarket where
  ticker : Option String := none
  title : Option String := none
  subtitle : Option String := none
  category : Option String := none
  status : Option String := none
  yes_price : Option ℚ := none
  no_price : Option ℚ := none
  last_price : Option ℚ := none
  previous_yes_price : Option ℚ := none
  volume : Option ℚ := none
  open_interest : Option ℚ := none
  liquidity : Option ℚ := none
deriving DecidableEq

/-- Row of the normalized / scored market table.  Signal columns added by the
pipeline are `Option ℚ` fields, `none` standing for NaN. -/
structure MRow where
  ticker : String := ""
  category : String := ""
  title : String := ""
  subtitle : String := ""
  status : String := ""
  yes_price : Option ℚ := none
  no_price : Option ℚ := none
  last_price : Option ℚ := none
  previous_yes_price : Option ℚ := none
  volume : ℚ := 0
  open_interest : ℚ := 0
  liquidity : ℚ := 0
  spread : Option ℚ := none
  delta_24h : Option ℚ := none
  delta_7d : Option ℚ := none
  volatility : Option ℚ := none
  attention_score : Option ℚ := none
  confidence_score : Option ℚ := none
  newsworthiness : Option ℚ := none
deriving DecidableEq

/-- Historical snapshot row: (ticker, snapshot_time, yes_price), time measured
in hours on a rational clock. -/
structure Snapshot where
  ticker : String := ""
  snapshot_time : ℚ := 0
  yes_price : Option ℚ := none
deriving DecidableEq

/-- Price normalization of data_normalization.normalize_markets: cents are
divided by 100, with 0 a falsy sentinel mapped to missing. -/
def centsToProb (c : Option ℚ) : Option ℚ :=
  match c with
  | some v => if v = 0 then none else some (v / 100)
  | none => none

/-- Normalization of one raw record, following normalize_markets row by row
(field defaults from dict.get, cents rescaled to probabilities). -/
def normalizeRow (m : RawMarket) : MRow :=
  { ticker := m.ticker.getD ""
    title := m.title.getD ""
    subtitle := m.subtitle.getD ""
    category := m.category.getD "Other"
    status := m.status.getD "unknown"
    yes_price := centsToProb m.yes_price
    no_price := centsToProb m.no_price
    last_price := centsToProb m.last_price
    previous_yes_price := centsToProb m.previous_yes_price
    volume := m.volume.getD 0
    open_interest := m.open_interest.getD 0
    liquidity := m.liquidity.getD 0 }

/-- data_normalization.normalize_markets: one normalized row per raw record.
The per-record try/except cannot fire in the typed embedding, and the
fetch_time column is not carried. -/
def normalize_markets (raw : List RawMarket) : List MRow :=
  raw.map normalizeRow

/-- Ascending stable sort of snapshots by snapshot_time, as used by
compute_probability_changes and compute_volatility (sort_values). -/
def sortByTime (l : List Snapshot) : List Snapshot :=
  List.insertionSort (fun a b => a.snapshot_time ≤ b.snapshot_time) l

/-- Snapshots of one ticker, in history order. -/
def tickerSnaps (hist : List Snapshot) (t : String) : List Snapshot :=
  hist.filter (fun s => s.ticker == t)

/-- Snapshots of one ticker taken at or before the cutoff, after the
sort on snapshot_time (the candidate 24h/7d references). -/
def qualifyingSnaps (hist : List Snapshot) (t : String) (cutoff : ℚ) : List Snapshot :=
  (sortByTime (tickerSnaps hist t)).filter (fun s => decide (s.snapshot_time ≤ cutoff))

/-- Current price of a ticker: yes_price of the first table row bearing it
(iloc[0] in the source). -/
def currentPrice (df : List MRow) (t : String) : Option ℚ :=
  ((df.filter (fun r => r.ticker == t)).head?).bind (fun r => r.yes_price)

/-- Delta of one ticker against the latest snapshot at or before the cutoff:
none when the ticker has no snapshots, none when no snapshot qualifies,
otherwise current price minus the reference price (NaN-propagating). -/
def deltaAt (df : List MRow) (hist : List Snapshot) (t : String) (cutoff : ℚ) : Option ℚ :=
  if (tickerSnaps hist t).isEmpty then none
  else
    match (qualifyingSnaps hist t cutoff).getLast? with
    | none => none
    | some s => osub (currentPrice df t) s.yes_price

/-- signals.compute_probability_changes: with no (or empty) history the 24h
delta falls back to yes_price - previous_yes_price and the 7d delta stays NaN;
with history, each row's deltas come from the nearest-before snapshots at
cutoffs now - 24 hours and now - 168 hours. -/
def compute_probability_changes (now : ℚ) (df : List MRow)
    (hist : Option (List Snapshot)) : List MRow :=
  match hist with
  | none =>
      df.map (fun r =>
        { r with delta_24h := osub r.yes_price r.previous_yes_price, delta_7d := none })
  | some h =>
      if h.isEmpty then
        df.map (fun r =>
          { r with delta_24h := osub r.yes_price r.previous_yes_price, delta_7d := none })
      else
        df.map (fun r =>
          { r with delta_24h := deltaAt df h r.ticker (now - 24),
                   delta_7d := deltaAt df h r.ticker (now - 168) })

/-- First-seen deduplication of the ticker column, as produced by
pandas unique() inside compute_volatility. -/
def uniqueKeys : List String → List String
  | [] => []
  | a :: t => a :: uniqueKeys (t.filter (fun x => !(x == a)))
termination_by l => l.length
decreasing_by
  simp only [List.length_cons]
  exact Nat.lt_succ_of_le (List.length_filter_le _ _)

/-- signals.compute_volatility: per ticker with at least two price
observations in the window, the sample standard deviation of its sorted
recent prices.  numpy's std is irrational-valued, so it enters the embedding
as the abstract parameter std; no claim inspects the value. -/
def compute_volatility (std : List ℚ → ℚ) (now : ℚ) (snaps : List Snapshot)
    (window_hours : ℚ := 24) : List (String × ℚ) :=
  if snaps.isEmpty then []
  else
    let cutoff := now - window_hours
    let recent := snaps.filter (fun s => decide (cutoff ≤ s.snapshot_time))
    (uniqueKeys (recent.map (fun s => s.ticker))).filterMap (fun t =>
      let td := recent.filter (fun s => s.ticker == t)
      if td.length < 2 then none
      else
        let prices := (sortByTime td).filterMap (fun s => s.yes_price)
        if prices.length < 2 then none else some (t, std prices))

/-- signals.compute_attention_metrics: batch-normalized volume and open
interest, combined 60/40.  hasCols mirrors the column-presence test of the
source; the normalized pipeline always has both columns. -/
def compute_attention_metrics (hasCols : Bool) (df : List MRow) : List MRow :=
  if hasCols then
    let maxVolume := if 0 < colMax (df.map (fun r => r.volume))
      then colMax (df.map (fun r => r.volume)) else 1
    let maxOi := if 0 < colMax (df.map (fun r => r.open_interest))
      then colMax (df.map (fun r => r.open_interest)) else 1
    df.map (fun r =>
      let a := 0.6 * (r.volume / maxVolume) + 0.4 * (r.open_interest / maxOi)
      { r with attention_score := some a })
  else
    df.map (fun r => { r with attention_score := some 0 })

/-- Confidence of one spread value under the exponential policy of
signals.compute_confidence_metrics: exp(-15 s) for a defined non-negative
spread, the neutral 0.5 otherwise. -/
noncomputable def confidence_from_spread (s : Option ℚ) : ℝ :=
  match s with
  | some x => if 0 ≤ x then Real.exp (-((x : ℝ) * 15)) else 0.5
  | none => 0.5

/-- signals.compute_confidence_metrics over the spread column alone: 0.5
everywhere when the column is missing, otherwise the per-value policy. -/
noncomputable def compute_confidence_metrics (hasSpreadCol : Bool)
    (spreads : List (Option ℚ)) : List ℝ :=
  if hasSpreadCol then spreads.map confidence_from_spread
  else spreads.map (fun _ => 0.5)

/-- Pipeline copy of the confidence formula with the transcendental exp
abstracted as a rational-valued parameter, so that the all-signals chain
stays decidable; no claim inspects the confidence values it stores. -/
def confidenceQ (expQ : ℚ → ℚ) (s : Option ℚ) : ℚ :=
  match s with
  | some x => if 0 ≤ x then expQ (-(x * 15)) else 0.5
  | none => 0.5

/-- signals.compute_all_signals: probability deltas, then the volatility
left-join (NaN when no usable history), then attention, then confidence. -/
def compute_all_signals (std : List ℚ → ℚ) (expQ : ℚ → ℚ) (hasSpreadCol : Bool)
    (now : ℚ) (df : List MRow) (hist : Option (List Snapshot)) : List MRow :=
  let df1 := compute_probability_changes now df hist
  let df2 :=
    match hist with
    | none => df1.map (fun r => { r with volatility := none })
    | some h =>
        if h.isEmpty then df1.map (fun r => { r with volatility := none })
        else
          let vdf := compute_volatility std now h
          if vdf.isEmpty then df1.map (fun r => { r with volatility := none })
          else df1.map (fun r =>
            { r with volatility := (vdf.find? (fun e => e.1 == r.ticker)).map (fun e => e.2) })
  let df3 := compute_attention_metrics true df2
  if hasSpreadCol then
    df3.map (fun r => { r with confidence_score := some (confidenceQ expQ r.spread) })
  else
    df3.map (fun r => { r with confidence_score := some 0.5 })

/-- Absolute 24h delta of a row after fillna(0), the quantity normalized by
rank_top_stories. -/
def absDelta (r : MRow) : ℚ := |(r.delta_24h.getD 0)|

/-- Filled volatility of a row (fillna(0)). -/
def volFill (r : MRow) : ℚ := r.volatility.getD 0

/-- Newsworthiness of a row within a batch, exactly as assembled by
signals.rank_top_stories: 0.4 normalized absolute 24h delta, 0.3 attention
(NaN as 0), 0.2 confidence (NaN as 0.5), 0.1 normalized volatility.  The
added pandas column is represented by this function of the row. -/
def newsScore (df : List MRow) (r : MRow) : ℚ :=
  let maxDelta := if 0 < colMax (df.map absDelta) then colMax (df.map absDelta) else 1
  let deltaScore := absDelta r / maxDelta
  let attention := r.attention_score.getD 0
  let confidence := r.confidence_score.getD 0.5
  let maxVol := colMax (df.map volFill)
  let volScore := if 0 < maxVol then volFill r / maxVol else 0
  0.4 * deltaScore + 0.3 * attention + 0.2 * confidence + 0.1 * volScore

/-- signals.rank_top_stories: the top n rows of the batch by newsworthiness
(pandas nlargest = stable descending sort followed by take). -/
def rank_top_stories (df : List MRow) (n : ℕ) : List MRow :=
  if df.isEmpty then df
  else (sortDesc (newsScore df) df).take n

/-- Modelled from src/hex_cells/04_signals.py compute_volatility: the hex-cell
variant assigns every market the proxy volatility 2 p (1 - p) of its current
yes_price, unconditionally (its snapshot argument is ignored). -/
def hex_compute_volatility (df : List MRow) : List MRow :=
  df.map (fun r => { r with volatility := r.yes_price.map (fun p => 2 * p * (1 - p)) })

/-- Keyword list of the Politics section in layout.CATEGORY_MAPPINGS. -/
def politicsKeywords : List String :=
  ["Politics", "Elections", "Government", "Policy", "Congress", "Senate", "President"]

/-- Keyword list of the Business section. -/
def businessKeywords : List String :=
  ["Business", "Economics", "Finance", "Markets", "Stocks", "Economy", "Trade"]

/-- Keyword list of the Tech section. -/
def techKeywords : List String :=
  ["Technology", "Tech", "AI", "Crypto", "Innovation", "Science", "Space"]

/-- Keyword list of the Culture section (note that it holds "Sports"). -/
def cultureKeywords : List String :=
  ["Culture", "Entertainment", "Sports", "Arts", "Music", "Movies", "TV"]

/-- Keyword list of the Sports section. -/
def sportsKeywords : List String :=
  ["Sports", "Football", "Basketball", "Baseball", "Soccer", "Olympics"]

/-- layout.CATEGORY_MAPPINGS, in source order (Python dicts iterate in
insertion order). -/
def CATEGORY_MAPPINGS : List (String × List String) :=
  [("Politics", politicsKeywords), ("Business", businessKeywords), ("Tech", techKeywords),
   ("Culture", cultureKeywords), ("Sports", sportsKeywords)]

/-- ASCII lowercasing of one character (Python str.lower restricted to the
ASCII range, which covers every keyword of the section table). -/
def lowerChar (c : Char) : Char :=
  if 65 ≤ c.toNat ∧ c.toNat ≤ 90 then Char.ofNat (c.toNat + 32) else c

/-- ASCII lowercasing of a string, character by character. -/
def asciiLower (s : String) : String :=
  ⟨s.data.map lowerChar⟩

/-- Combined lowercase text blob of layout.categorize_market:
category, title and subtitle lowered and space-joined. -/
def combinedText (r : MRow) : String :=
  asciiLower r.category ++ " " ++ asciiLower r.title ++ " " ++ asciiLower r.subtitle

/-- Case-insensitive substring test of one keyword against the blob
(Python "keyword.lower() in combined_text"). -/
def kwMatch (text : String) (kw : String) : Bool :=
  decide ((asciiLower kw).data <:+: text.data)

/-- Keyword-list test of one section: true when any keyword occurs in
the blob. -/
def sectionMatch (text : String) (kws : List String) : Bool :=
  kws.any (fun kw => kwMatch text kw)

/-- layout.categorize_market: the first section of CATEGORY_MAPPINGS with a
matching keyword, Other when none matches. -/
def categorize_market (r : MRow) : String :=
  match CATEGORY_MAPPINGS.find? (fun sk => sectionMatch (combinedText r) sk.2) with
  | some sk => sk.1
  | none => "Other"

/-- Developing-story membership test of layout.identify_developing_stories,
missing values filled with 0: volatility above threshold, or absolute 24h
delta above threshold, or high attention with a moderate delta. -/
def isDeveloping (vt dt : ℚ) (r : MRow) : Bool :=
  decide (vt < volFill r) || decide (dt < absDelta r) ||
    (decide ((0.7 : ℚ) < r.attention_score.getD 0) && decide ((0.02 : ℚ) < absDelta r))

/-- Rows of the batch passing the developing-story membership test. -/
def developingSet (df : List MRow) (vt dt : ℚ) : List MRow :=
  df.filter (isDeveloping vt dt)

/-- Secondary ranking score of the developing set: half attention, half
volatility normalized by the members' maximum defined volatility (0 when that
maximum is not positive; pandas max skips NaN). -/
def developingScore (df : List MRow) (vt dt : ℚ) (r : MRow) : ℚ :=
  let maxVol := colMax ((developingSet df vt dt).filterMap (fun x => x.volatility))
  0.5 * r.attention_score.getD 0 + 0.5 * (if 0 < maxVol then volFill r / maxVol else 0)

/-- layout.identify_developing_stories: the members, sorted descending by the
secondary score, capped at 10. -/
def identify_developing_stories (df : List MRow)
    (vt : ℚ := 0.05) (dt : ℚ := 0.05) : List MRow :=
  if df.isEmpty then df
  else (sortDesc (developingScore df vt dt) (developingSet df vt dt)).take 10

/-- layout.organize_into_sections: on the empty table, every section (Top
Stories plus the five category sections) is empty; otherwise rows are
categorized, Top Stories is the global top 10 by newsworthiness (or the first
10 when that column is absent, hasNews false), and each category section is
its rows sorted by newsworthiness, capped at 15. -/
def organize_into_sections (hasNews : Bool) (df : List MRow) :
    List (String × List MRow) :=
  if df.isEmpty then
    ("Top Stories", []) :: CATEGORY_MAPPINGS.map (fun sk => (sk.1, ([] : List MRow)))
  else
    let newsKey := fun (r : MRow) => r.newsworthiness.getD 0
    let top := if hasNews then (sortDesc newsKey df).take 10 else df.take 10
    let catSections := CATEGORY_MAPPINGS.map (fun sk =>
      let rows := df.filter (fun r => categorize_market r == sk.1)
      let sorted := if hasNews then sortDesc newsKey rows
        else sortDesc (fun r => r.attention_score.getD 0) rows
      (sk.1, sorted.take 15))
    ("Top Stories", top) :: catSections

/-- Sample rows used by the concrete witness and counterexample theorems. -/
def sampleRowA : MRow := { ticker := "A", attention_score := some 0.5 }

/-- Second sample row, with higher attention than sampleRowA. -/
def sampleRowB : MRow := { ticker := "B", attention_score := some 0.8 }

/-- Sample developing row: volatility above the default threshold. -/
def sampleRowC : MRow := { ticker := "C", volatility := some 0.1, attention_score := some 0.5 }

/-- Sample market of the attention counterexample: an all-zero batch. -/
def sampleRowZero : MRow := { ticker := "Z", volume := 0, open_interest := 0 }

/-- Sample market whose combined text holds both a Politics keyword and the
word sports. -/
def samplePoliticsSports : MRow := { ticker := "PS", category := "Politics", title := "sports" }

/-- Sample market for the volatility counterexample: a coin-flip price and no
history. -/
def sampleCoinFlip : MRow :=
  { ticker := "CF", yes_price := some 0.5, previous_yes_price := some 0.5 }

/-- Sample snapshot history of one ticker for the delta witness. -/
def sampleHist : List Snapshot :=
  [{ ticker := "A", snapshot_time := 100, yes_price := some 0.5 },
   { ticker := "A", snapshot_time := 150, yes_price := some 0.55 },
   { ticker := "A", snapshot_time := 190, yes_price := some 0.6 }]

/-- Sample current table matching sampleHist. -/
def sampleDf : List MRow :=
  [{ ticker := "A", yes_price := some 0.6, previous_yes_price := some 0.5 }]

/-- Attention formula as the specification words it: 0.6 volume over batch
maximum plus 0.4 open interest over batch maximum, each normalized term 0 when
its maximum is 0.  Compared against compute_attention_metrics. -/
def attention_spec_score (df : List MRow) (r : MRow) : ℚ :=
  0.6 * (if colMax (df.map (fun x => x.volume)) = 0 then 0
         else r.volume / colMax (df.map (fun x => x.volume))) +
  0.4 * (if colMax (df.map (fun x => x.open_interest)) = 0 then 0
         else r.open_interest / colMax (df.map (fun x => x.open_interest)))

/-- Sample market with the maximal volume and open interest of its batch. -/
def sampleRowV1 : MRow := { ticker := "V1", volume := 100, open_interest := 10 }

/-- Sample market with smaller volume than sampleRowV1. -/
def sampleRowV2 : MRow := { ticker := "V2", volume := 50, open_interest := 10 }

theorem colMax_nonneg (l : List ℚ) : 0 ≤ colMax l := by
  induction l with
  | nil => simp [colMax]
  | cons a t ih =>
    simp only [colMax, List.foldr] at *
    exact le_trans ih (le_max_right a _)

theorem le_colMax {l : List ℚ} {x : ℚ} (hx : x ∈ l) : x ≤ colMax l := by
  induction l with
  | nil => cases hx
  | cons a t ih =>
    rcases List.mem_cons.mp hx with h | h
    · simp [colMax, h]
    · exact le_trans (ih h) (by simp [colMax])

theorem sortDesc_perm {α : Type} (f : α → ℚ) (l : List α) : List.Perm (sortDesc f l) l :=
  List.perm_insertionSort _ l

theorem sortDesc_sorted {α : Type} (f : α → ℚ) (l : List α) :
    List.Pairwise (fun a b => f b ≤ f a) (sortDesc f l) := by
  haveI : IsTotal α (fun a b => f b ≤ f a) := ⟨fun a b => le_total (f b) (f a)⟩
  haveI : IsTrans α (fun a b => f b ≤ f a) := ⟨fun _ _ _ h1 h2 => le_trans h2 h1⟩
  exact List.sorted_insertionSort _ l

theorem sortByTime_sorted (l : List Snapshot) :
    List.Pairwise (fun a b => a.snapshot_time ≤ b.snapshot_time) (sortByTime l) := by
  haveI : IsTotal Snapshot (fun a b => a.snapshot_time ≤ b.snapshot_time) :=
    ⟨fun a b => le_total a.snapshot_time b.snapshot_time⟩
  haveI : IsTrans Snapshot (fun a b => a.snapshot_time ≤ b.snapshot_time) :=
    ⟨fun _ _ _ h1 h2 => le_trans h1 h2⟩
  exact List.sorted_insertionSort _ l

theorem sortByTime_perm (l : List Snapshot) : List.Perm (sortByTime l) l :=
  List.perm_insertionSort _ l

theorem filter_orderedInsert_of_eq {α : Type} (f : α → ℚ) (c : ℚ) (a : α) (l : List α)
    (h : f a = c) :
    (List.orderedInsert (fun x y => f y ≤ f x) a l).filter (fun x => decide (f x = c)) =
      a :: l.filter (fun x => decide (f x = c)) := by
  induction l with
  | nil => simp [List.orderedInsert, h]
  | cons b t ih =>
    by_cases hle : f b ≤ f a
    · rw [List.orderedInsert_of_le (fun x y => f y ≤ f x) t hle]
      simp [List.filter, h]
    · have hab : f a < f b := lt_of_not_le hle
      have hbc : ¬ (f b = c) := ne_of_gt (h ▸ hab)
      simp only [List.orderedInsert, if_neg hle]
      simp [List.filter, hbc, ih]

theorem filter_orderedInsert_of_ne {α : Type} (f : α → ℚ) (c : ℚ) (a : α) (l : List α)
    (h : ¬ (f a = c)) :
    (List.orderedInsert (fun x y => f y ≤ f x) a l).filter (fun x => decide (f x = c)) =
      l.filter (fun x => decide (f x = c)) := by
  induction l with
  | nil => simp [List.orderedInsert, h]
  | cons b t ih =>
    by_cases hle : f b ≤ f a
    · simp [List.orderedInsert, hle, h, List.filter]
    · simp [List.orderedInsert, hle, List.filter, ih]

theorem filter_sortDesc {α : Type} (f : α → ℚ) (c : ℚ) (l : List α) :
    (sortDesc f l).filter (fun x => decide (f x = c)) = l.filter (fun x => decide (f x = c)) := by
  induction l with
  | nil => rfl
  | cons a t ih =>
    by_cases h : f a = c
    · simp only [sortDesc, List.insertionSort] at *
      rw [filter_orderedInsert_of_eq f c a _ h, ih]
      simp [List.filter, h]
    · simp only [sortDesc, List.insertionSort] at *
      rw [filter_orderedInsert_of_ne f c a _ h, ih]
      simp [List.filter, h]

theorem filter_take_append {α : Type} (p : α → Bool) :
    ∀ (l : List α) (n : ℕ), ∃ t, (l.take n).filter p ++ t = l.filter p := by
  intro l
  induction l with
  | nil => intro n; exact ⟨[], by simp⟩
  | cons a l2 ih =>
    intro n
    cases n with
    | zero => exact ⟨(a :: l2).filter p, by simp⟩
    | succ m =>
      obtain ⟨t, ht⟩ := ih m
      cases hp : p a with
      | true => exact ⟨t, by simp [List.filter, hp, ht]⟩
      | false => exact ⟨t, by simp [List.filter, hp, ht]⟩

theorem rank_top_stories_eq_take (df : List MRow) (n : ℕ) :
    rank_top_stories df n = (sortDesc (newsScore df) df).take n := by
  cases df <;> simp [rank_top_stories, sortDesc]

/-- C1: rank_top_stories assembles newsworthiness as 0.4 times the
batch-normalized absolute 24h delta plus 0.3 attention plus 0.2 confidence
plus 0.1 batch-normalized volatility, each normalizing term 0 when its batch
maximum is 0 (NaN treated as 0 for delta, volatility and attention, 0.5 for
confidence), and returns exactly min(n, len) rows, sorted descending by
newsworthiness, all drawn from the input, ties broken by input order: the
kept rows of every newsworthiness class form a prefix of that class in
input order. -/
theorem rank_top_stories_spec (df : List MRow) (n : ℕ) :
    (rank_top_stories df n).length = min n df.length ∧
    List.Pairwise (fun a b => newsScore df b ≤ newsScore df a) (rank_top_stories df n) ∧
    (∀ r, r ∈ rank_top_stories df n → r ∈ df) ∧
    (∀ r, r ∈ df → newsScore df r =
        0.4 * (if colMax (df.map absDelta) = 0 then 0
               else absDelta r / colMax (df.map absDelta)) +
        0.3 * r.attention_score.getD 0 +
        0.2 * r.confidence_score.getD 0.5 +
        0.1 * (if colMax (df.map volFill) = 0 then 0
               else volFill r / colMax (df.map volFill))) ∧
    (∀ c, ∃ t, (rank_top_stories df n).filter (fun r => decide (newsScore df r = c)) ++ t =
        df.filter (fun r => decide (newsScore df r = c))) := by
  rw [rank_top_stories_eq_take]
  refine ⟨?_, ?_, ?_, ?_, ?_⟩
  · rw [List.length_take, (sortDesc_perm (newsScore df) df).length_eq]
  · exact List.Pairwise.sublist (List.take_sublist _ _) (sortDesc_sorted _ _)
  · intro r hr
    exact (sortDesc_perm (newsScore df) df).mem_iff.mp (List.take_subset _ _ hr)
  · intro r hr
    have hdelta : absDelta r /
        (if 0 < colMax (df.map absDelta) then colMax (df.map absDelta) else 1) =
        (if colMax (df.map absDelta) = 0 then 0
         else absDelta r / colMax (df.map absDelta)) := by
      rcases lt_or_eq_of_le (colMax_nonneg (df.map absDelta)) with hpos | heq
      · rw [if_pos hpos, if_neg (ne_of_gt hpos)]
      · have habs : absDelta r = 0 := by
          have h1 : absDelta r ≤ colMax (df.map absDelta) :=
            le_colMax (List.mem_map_of_mem absDelta hr)
          have h2 : 0 ≤ absDelta r := abs_nonneg _
          rw [← heq] at h1
          exact le_antisymm h1 h2
        rw [if_neg (by rw [← heq]; exact lt_irrefl 0), if_pos heq.symm, habs, zero_div]
    have hvol : (if 0 < colMax (df.map volFill)
          then volFill r / colMax (df.map volFill) else 0) =
        (if colMax (df.map volFill) = 0 then 0
         else volFill r / colMax (df.map volFill)) := by
      rcases lt_or_eq_of_le (colMax_nonneg (df.map volFill)) with hpos | heq
      · rw [if_pos hpos, if_neg (ne_of_gt hpos)]
      · rw [if_neg (by rw [← heq]; exact lt_irrefl 0), if_pos heq.symm]
    simp only [newsScore]
    rw [hdelta, hvol]
  · intro c
    obtain ⟨t, ht⟩ := filter_take_append
      (fun r => decide (newsScore df r = c)) (sortDesc (newsScore df) df) n
    exact ⟨t, by rw [ht, filter_sortDesc]⟩

/-- C1 witness: on a concrete two-row table with n = 1, the theorem yields
the length, sortedness and membership facts at that input. -/
theorem rank_top_stories_spec_witness :
    (rank_top_stories [sampleRowA, sampleRowB] 1).length = min 1 2 ∧
    (∀ r, r ∈ rank_top_stories [sampleRowA, sampleRowB] 1 → r ∈ [sampleRowA, sampleRowB]) := by
  have h := rank_top_stories_spec [sampleRowA, sampleRowB] 1
  exact ⟨by simpa using h.1, h.2.2.1⟩

theorem norm_term_bounds (vals : List ℚ) (v : ℚ) (hv : v ∈ vals) (hnn : ∀ x, x ∈ vals → 0 ≤ x) :
    0 ≤ (if colMax vals = 0 then 0 else v / colMax vals) ∧
    (if colMax vals = 0 then 0 else v / colMax vals) ≤ 1 := by
  rcases lt_or_eq_of_le (colMax_nonneg vals) with hpos | heq
  · rw [if_neg (ne_of_gt hpos)]
    exact ⟨div_nonneg (hnn v hv) (le_of_lt hpos), (div_le_one hpos).mpr (le_colMax hv)⟩
  · rw [if_pos heq.symm]
    exact ⟨le_refl 0, by norm_num⟩

theorem att_term_eq (vals : List ℚ) (v : ℚ) (hv : v ∈ vals) (hnn : ∀ x, x ∈ vals → 0 ≤ x) :
    v / (if 0 < colMax vals then colMax vals else 1) =
      (if colMax vals = 0 then 0 else v / colMax vals) := by
  rcases lt_or_eq_of_le (colMax_nonneg vals) with hpos | heq
  · rw [if_pos hpos, if_neg (ne_of_gt hpos)]
  · have hv0 : v = 0 := le_antisymm (heq ▸ le_colMax hv) (hnn v hv)
    rw [if_neg (by rw [← heq]; exact lt_irrefl 0), if_pos heq.symm, hv0, zero_div]

/-- C4 (amended): on a non-empty batch with non-negative volume and
open-interest columns, compute_attention_metrics attaches to each row the
specified score 0.6 normalized volume + 0.4 normalized open interest (term 0
when its batch maximum is 0), every score lies in [0, 1], and a row holding
both maxima scores exactly 1 provided both batch maxima are positive (in an
all-zero batch every score is 0, not 1). -/
theorem compute_attention_metrics_spec (df : List MRow) (_hne : df ≠ [])
    (hnn : ∀ r, r ∈ df → 0 ≤ r.volume ∧ 0 ≤ r.open_interest) :
    compute_attention_metrics true df =
      df.map (fun r => { r with attention_score := some (attention_spec_score df r) }) ∧
    (∀ r, r ∈ df → 0 ≤ attention_spec_score df r ∧ attention_spec_score df r ≤ 1) ∧
    (∀ r, r ∈ df → 0 < colMax (df.map (fun x => x.volume)) →
      0 < colMax (df.map (fun x => x.open_interest)) →
      r.volume = colMax (df.map (fun x => x.volume)) →
      r.open_interest = colMax (df.map (fun x => x.open_interest)) →
      attention_spec_score df r = 1) := by
  have hvnn : ∀ x, x ∈ df.map (fun r => r.volume) → 0 ≤ x := by
    intro x hx
    obtain ⟨r, hr, hrx⟩ := List.mem_map.mp hx
    exact hrx ▸ (hnn r hr).1
  have honn : ∀ x, x ∈ df.map (fun r => r.open_interest) → 0 ≤ x := by
    intro x hx
    obtain ⟨r, hr, hrx⟩ := List.mem_map.mp hx
    exact hrx ▸ (hnn r hr).2
  refine ⟨?_, ?_, ?_⟩
  · simp only [compute_attention_metrics, if_pos]
    apply List.map_congr_left
    intro r hr
    have h1 := att_term_eq (df.map (fun x => x.volume)) r.volume
      (List.mem_map_of_mem _ hr) hvnn
    have h2 := att_term_eq (df.map (fun x => x.open_interest)) r.open_interest
      (List.mem_map_of_mem _ hr) honn
    simp only [attention_spec_score]
    rw [h1, h2]
  · intro r hr
    have h1 := norm_term_bounds (df.map (fun x => x.volume)) r.volume
      (List.mem_map_of_mem _ hr) hvnn
    have h2 := norm_term_bounds (df.map (fun x => x.open_interest)) r.open_interest
      (List.mem_map_of_mem _ hr) honn
    constructor
    · unfold attention_spec_score
      have := h1.1
      have := h2.1
      positivity
    · unfold attention_spec_score
      nlinarith [h1.1, h1.2, h2.1, h2.2]
  · intro r hr hv ho hrv hro
    unfold attention_spec_score
    rw [if_neg (ne_of_gt hv), if_neg (ne_of_gt ho), hrv, hro,
      div_self (ne_of_gt hv), div_self (ne_of_gt ho)]
    norm_num

/-- C4 witness: in the batch [sampleRowV1, sampleRowV2] (volumes 100 and 50,
open interest 10 each) the first row holds both maxima and its specified
attention score is exactly 1. -/
theorem compute_attention_metrics_spec_witness :
    attention_spec_score [sampleRowV1, sampleRowV2] sampleRowV1 = 1 := by
  refine (compute_attention_metrics_spec [sampleRowV1, sampleRowV2] (by simp) ?_).2.2
    sampleRowV1 (by simp) ?_ ?_ ?_ ?_
  · intro r hr
    rcases List.mem_cons.mp hr with h | h
    · rw [h]; constructor <;> norm_num [sampleRowV1]
    · have h2 : r = sampleRowV2 := by simpa using h
      rw [h2]; constructor <;> norm_num [sampleRowV2]
  · norm_num [colMax, sampleRowV1, sampleRowV2, max_def]
  · norm_num [colMax, sampleRowV1, sampleRowV2, max_def]
  · norm_num [colMax, sampleRowV1, sampleRowV2, max_def]
  · norm_num [colMax, sampleRowV1, sampleRowV2, max_def]

/-- C4 counterexample: the all-zero one-row batch is non-empty with
non-negative columns and its only row holds both batch maxima, yet its
attention score is 0, not the claimed 1. -/
theorem compute_attention_metrics_counterexample :
    ([sampleRowZero] : List MRow) ≠ [] ∧
    (∀ r, r ∈ [sampleRowZero] → 0 ≤ r.volume ∧ 0 ≤ r.open_interest) ∧
    sampleRowZero.volume = colMax ([sampleRowZero].map (fun x => x.volume)) ∧
    sampleRowZero.open_interest = colMax ([sampleRowZero].map (fun x => x.open_interest)) ∧
    (compute_attention_metrics true [sampleRowZero]).map (fun r => r.attention_score) =
      [some 0] ∧
    (some (0 : ℚ) ≠ some (1 : ℚ)) := by
  refine ⟨by simp, ?_, ?_, ?_, ?_, by norm_num⟩
  · intro r hr
    have h : r = sampleRowZero := by simpa using hr
    rw [h]; constructor <;> norm_num [sampleRowZero]
  · norm_num [colMax, sampleRowZero, max_def]
  · norm_num [colMax, sampleRowZero, max_def]
  · norm_num [compute_attention_metrics, colMax, sampleRowZero, max_def]

/-- C5: under the exponential policy of compute_confidence_metrics, the
confidence score is monotonically non-increasing in the spread over defined
non-negative spreads, and every row whose spread is unavailable (spread
column missing, or NaN value) receives the neutral default 0.5. -/
theorem compute_confidence_metrics_spec :
    (∀ s1 s2 : ℚ, 0 ≤ s1 → s1 ≤ s2 →
      confidence_from_spread (some s2) ≤ confidence_from_spread (some s1)) ∧
    (∀ spreads : List (Option ℚ),
      compute_confidence_metrics false spreads = spreads.map (fun _ => 0.5)) ∧
    (∀ spreads : List (Option ℚ),
      compute_confidence_metrics true spreads = spreads.map confidence_from_spread) ∧
    confidence_from_spread none = 0.5 := by
  refine ⟨?_, ?_, ?_, rfl⟩
  · intro s1 s2 h1 h12
    have h2 : (0 : ℚ) ≤ s2 := le_trans h1 h12
    simp only [confidence_from_spread, if_pos h1, if_pos h2]
    apply Real.exp_le_exp.mpr
    apply neg_le_neg
    have hc : (s1 : ℝ) ≤ (s2 : ℝ) := by exact_mod_cast h12
    exact mul_le_mul_of_nonneg_right hc (by norm_num)
  · intro spreads
    simp [compute_confidence_metrics]
  · intro spreads
    simp [compute_confidence_metrics]

/-- C5 witness: at the concrete spreads 1/10 and 1/5 the confidence of the
wider spread is at most the confidence of the tighter one. -/
theorem compute_confidence_metrics_spec_witness :
    confidence_from_spread (some (1/5 : ℚ)) ≤ confidence_from_spread (some (1/10 : ℚ)) :=
  compute_confidence_metrics_spec.1 (1/10) (1/5) (by norm_num) (by norm_num)

theorem categorize_market_eq (r : MRow) :
    categorize_market r =
      (if sectionMatch (combinedText r) politicsKeywords = true then "Politics"
       else if sectionMatch (combinedText r) businessKeywords = true then "Business"
       else if sectionMatch (combinedText r) techKeywords = true then "Tech"
       else if sectionMatch (combinedText r) cultureKeywords = true then "Culture"
       else if sectionMatch (combinedText r) sportsKeywords = true then "Sports"
       else "Other") := by
  simp only [categorize_market, CATEGORY_MAPPINGS]
  cases h1 : sectionMatch (combinedText r) politicsKeywords <;>
    cases h2 : sectionMatch (combinedText r) businessKeywords <;>
      cases h3 : sectionMatch (combinedText r) techKeywords <;>
        cases h4 : sectionMatch (combinedText r) cultureKeywords <;>
          cases h5 : sectionMatch (combinedText r) sportsKeywords <;>
            simp [List.find?, h1, h2, h3, h4, h5]

/-- C6: categorize_market is total and deterministic: for every market it
equals the first section of the ordered table (Politics, Business, Tech,
Culture, Sports) one of whose keywords occurs case-insensitively in the
combined category-title-subtitle blob, Other when none does, and its output
is always one of the six section names. -/
theorem categorize_market_spec (r : MRow) :
    categorize_market r =
      (if sectionMatch (combinedText r) politicsKeywords = true then "Politics"
       else if sectionMatch (combinedText r) businessKeywords = true then "Business"
       else if sectionMatch (combinedText r) techKeywords = true then "Tech"
       else if sectionMatch (combinedText r) cultureKeywords = true then "Culture"
       else if sectionMatch (combinedText r) sportsKeywords = true then "Sports"
       else "Other") ∧
    categorize_market r ∈ ["Politics", "Business", "Tech", "Culture", "Sports", "Other"] := by
  refine ⟨categorize_market_eq r, ?_⟩
  rw [categorize_market_eq r]
  split_ifs <;> simp

theorem sports_kw_culture (r : MRow) (h : kwMatch (combinedText r) "Sports" = true) :
    sectionMatch (combinedText r) cultureKeywords = true := by
  simp [sectionMatch, cultureKeywords, h]

/-- C10 (amended): a market whose combined text contains the substring
"sports" is never assigned the Sports section, and is assigned Culture
whenever no Politics, Business or Tech keyword also matches (an earlier
section's keyword wins otherwise); conversely categorize_market returns
Sports only when a sport-specific keyword (football, basketball, baseball,
soccer, olympics) matches and no earlier section's keyword does, "sports"
itself included. -/
theorem sports_culture_shadowing (r : MRow) :
    (kwMatch (combinedText r) "Sports" = true → categorize_market r ≠ "Sports") ∧
    (kwMatch (combinedText r) "Sports" = true →
      sectionMatch (combinedText r) politicsKeywords = false →
      sectionMatch (combinedText r) businessKeywords = false →
      sectionMatch (combinedText r) techKeywords = false →
      categorize_market r = "Culture") ∧
    (categorize_market r = "Sports" →
      sectionMatch (combinedText r)
        ["Football", "Basketball", "Baseball", "Soccer", "Olympics"] = true ∧
      kwMatch (combinedText r) "Sports" = false ∧
      sectionMatch (combinedText r) politicsKeywords = false ∧
      sectionMatch (combinedText r) businessKeywords = false ∧
      sectionMatch (combinedText r) techKeywords = false ∧
      sectionMatch (combinedText r) cultureKeywords = false) := by
  refine ⟨?_, ?_, ?_⟩
  · intro h
    have hc := sports_kw_culture r h
    rw [categorize_market_eq r]
    split_ifs <;> simp
  · intro h hp hb ht
    have hc := sports_kw_culture r h
    rw [categorize_market_eq r, hp, hb, ht, hc]
    simp
  · intro heq
    rw [categorize_market_eq r] at heq
    split_ifs at heq with h1 h2 h3 h4 h5
    · exact absurd heq (by decide)
    · exact absurd heq (by decide)
    · exact absurd heq (by decide)
    · exact absurd heq (by decide)
    · have hcf : sectionMatch (combinedText r) cultureKeywords = false :=
        Bool.eq_false_iff.mpr h4
      have hsp : kwMatch (combinedText r) "Sports" = false := by
        cases hks : kwMatch (combinedText r) "Sports"
        · rfl
        · exact absurd (sports_kw_culture r hks) h4
      have hrest : sectionMatch (combinedText r)
          ["Football", "Basketball", "Baseball", "Soccer", "Olympics"] = true := by
        have h5' := h5
        simp only [sectionMatch, sportsKeywords, List.any_cons, List.any_nil,
          Bool.or_eq_true] at h5'
        rcases h5' with hx | h5'
        · rw [hsp] at hx; cases hx
        · simp only [sectionMatch, List.any_cons, List.any_nil, Bool.or_eq_true]
          tauto
      exact ⟨hrest, hsp, Bool.eq_false_iff.mpr h1, Bool.eq_false_iff.mpr h2,
        Bool.eq_false_iff.mpr h3, hcf⟩
    · exact absurd heq (by decide)

/-- C10 counterexample: the market with category Politics and title sports
contains the substring sports in its combined text, yet categorize_market
assigns it Politics, not Culture: containing "sports" does not by itself
force the Culture section. -/
theorem sports_culture_counterexample :
    kwMatch (combinedText samplePoliticsSports) "Sports" = true ∧
    categorize_market samplePoliticsSports = "Politics" ∧
    ("Politics" : String) ≠ "Culture" := by
  refine ⟨by decide, by decide, by decide⟩

theorem identify_eq_take (df : List MRow) (vt dt : ℚ) :
    identify_developing_stories df vt dt =
      (sortDesc (developingScore df vt dt) (developingSet df vt dt)).take 10 := by
  cases df <;> simp [identify_developing_stories, developingSet, sortDesc]

/-- C7: a market belongs to the developing set iff volatility exceeds its
threshold, or the absolute 24h delta exceeds its threshold, or attention
exceeds 0.7 with an absolute delta above 0.02 (missing values as 0); the
returned list ranks members descending by the secondary score 0.5 attention
plus 0.5 normalized volatility and keeps at most the top 10. -/
theorem identify_developing_stories_spec (df : List MRow) (vt dt : ℚ) :
    (∀ r, r ∈ developingSet df vt dt ↔ (r ∈ df ∧
      (vt < r.volatility.getD 0 ∨ dt < |r.delta_24h.getD 0| ∨
        ((0.7 : ℚ) < r.attention_score.getD 0 ∧ (0.02 : ℚ) < |r.delta_24h.getD 0|)))) ∧
    (∀ r, developingScore df vt dt r =
      0.5 * r.attention_score.getD 0 + 0.5 *
        (if 0 < colMax ((developingSet df vt dt).filterMap (fun x => x.volatility))
         then r.volatility.getD 0 /
           colMax ((developingSet df vt dt).filterMap (fun x => x.volatility))
         else 0)) ∧
    (identify_developing_stories df vt dt).length = min 10 (developingSet df vt dt).length ∧
    List.Pairwise (fun a b => developingScore df vt dt b ≤ developingScore df vt dt a)
      (identify_developing_stories df vt dt) ∧
    (∀ r, r ∈ identify_developing_stories df vt dt → r ∈ developingSet df vt dt) ∧
    (identify_developing_stories df vt dt).length ≤ 10 := by
  have hlen : (identify_developing_stories df vt dt).length =
      min 10 (developingSet df vt dt).length := by
    rw [identify_eq_take, List.length_take,
      (sortDesc_perm (developingScore df vt dt) (developingSet df vt dt)).length_eq]
  refine ⟨?_, ?_, hlen, ?_, ?_, ?_⟩
  · intro r
    simp only [developingSet, List.mem_filter, isDeveloping, absDelta, volFill,
      Bool.or_eq_true, Bool.and_eq_true, decide_eq_true_eq, or_assoc]
  · intro r
    simp only [developingScore, volFill]
  · rw [identify_eq_take]
    exact List.Pairwise.sublist (List.take_sublist _ _) (sortDesc_sorted _ _)
  · intro r hr
    rw [identify_eq_take] at hr
    exact (sortDesc_perm _ _).mem_iff.mp (List.take_subset _ _ hr)
  · rw [hlen]
    exact min_le_left _ _

/-- C7 witness: the single-row table holding sampleRowC (volatility 0.1)
makes that row a member of the developing set at the default thresholds. -/
theorem identify_developing_stories_spec_witness :
    sampleRowC ∈ developingSet [sampleRowC] 0.05 0.05 :=
  (identify_developing_stories_spec [sampleRowC] 0.05 0.05).1 sampleRowC |>.mpr
    ⟨by simp, Or.inl (by norm_num [sampleRowC])⟩

theorem length_filter_mono {α : Type} (p q : α → Bool) (l : List α)
    (h : ∀ a, p a = true → q a = true) :
    (l.filter p).length ≤ (l.filter q).length := by
  induction l with
  | nil => simp
  | cons a t ih =>
    cases hp : p a with
    | true =>
      rw [List.filter_cons_of_pos hp, List.filter_cons_of_pos (h a hp)]
      exact Nat.succ_le_succ ih
    | false =>
      rw [List.filter_cons_of_neg (by simp [hp])]
      cases hq : q a with
      | true =>
        rw [List.filter_cons_of_pos hq]
        exact le_trans ih (Nat.le_succ _)
      | false =>
        rw [List.filter_cons_of_neg (by simp [hq])]
        exact ih

theorem isDeveloping_mono (vt vt' dt dt' : ℚ) (hv : vt' ≤ vt) (hd : dt' ≤ dt) (r : MRow)
    (h : isDeveloping vt dt r = true) : isDeveloping vt' dt' r = true := by
  simp only [isDeveloping, Bool.or_eq_true, Bool.and_eq_true, decide_eq_true_eq] at h ⊢
  rcases h with (h | h) | h
  · exact Or.inl (Or.inl (lt_of_le_of_lt hv h))
  · exact Or.inl (Or.inr (lt_of_le_of_lt hd h))
  · exact Or.inr h

/-- C8: lowering the volatility threshold or the delta threshold never
shrinks the developing selection: every member under the higher thresholds
stays a member under the lower ones, and the list identify_developing_stories
returns under the lower thresholds is never shorter. -/
theorem identify_developing_stories_monotone (df : List MRow) (vt vt' dt dt' : ℚ)
    (hv : vt' ≤ vt) (hd : dt' ≤ dt) :
    (∀ r, r ∈ developingSet df vt dt → r ∈ developingSet df vt' dt') ∧
    (identify_developing_stories df vt dt).length ≤
      (identify_developing_stories df vt' dt').length := by
  constructor
  · intro r hr
    rw [developingSet, List.mem_filter] at hr ⊢
    exact ⟨hr.1, isDeveloping_mono vt vt' dt dt' hv hd r hr.2⟩
  · rw [identify_eq_take, identify_eq_take, List.length_take, List.length_take,
      (sortDesc_perm _ _).length_eq, (sortDesc_perm _ _).length_eq]
    exact min_le_min (le_refl 10)
      (length_filter_mono _ _ df (isDeveloping_mono vt vt' dt dt' hv hd))

/-- C8 witness: at the concrete thresholds 1/25 ≤ 1/20 on the one-row table
holding sampleRowC, the returned list under the lower thresholds is at least
as long. -/
theorem identify_developing_stories_monotone_witness :
    (identify_developing_stories [sampleRowC] 0.05 0.05).length ≤
      (identify_developing_stories [sampleRowC] 0.04 0.04).length :=
  (identify_developing_stories_monotone [sampleRowC] 0.05 0.04 0.05 0.04
    (by norm_num) (by norm_num)).2

theorem getLast?_mem_list {α : Type} : ∀ (l : List α) (s : α), l.getLast? = some s → s ∈ l
  | [], _, h => by cases h
  | [a], s, h => by
      have ha : a = s := by simpa using h
      simp [ha]
  | a :: b :: t, s, h => by
      rw [List.getLast?_cons_cons] at h
      exact List.mem_cons_of_mem a (getLast?_mem_list (b :: t) s h)

theorem getLast_time_max : ∀ (l : List Snapshot),
    List.Pairwise (fun a b => a.snapshot_time ≤ b.snapshot_time) l →
    ∀ (s : Snapshot), l.getLast? = some s →
    ∀ x, x ∈ l → x.snapshot_time ≤ s.snapshot_time
  | [], _, s, h => by cases h
  | [a], _, s, h => by
      have ha : a = s := by simpa using h
      intro x hx
      have hxa : x = a := by simpa using hx
      rw [hxa, ha]
  | a :: b :: t, hp, s, h => by
      rw [List.getLast?_cons_cons] at h
      have hp' := List.pairwise_cons.mp hp
      intro x hx
      rcases List.mem_cons.mp hx with hxa | hxt
      · have hsmem : s ∈ b :: t := getLast?_mem_list (b :: t) s h
        rw [hxa]
        exact hp'.1 s hsmem
      · exact getLast_time_max (b :: t) hp'.2 s h x hxt

theorem qualifying_sorted (hist : List Snapshot) (t : String) (cutoff : ℚ) :
    List.Pairwise (fun a b => a.snapshot_time ≤ b.snapshot_time)
      (qualifyingSnaps hist t cutoff) :=
  List.Pairwise.sublist (List.filter_sublist _) (sortByTime_sorted _)

theorem mem_qualifying_iff (hist : List Snapshot) (t : String) (cutoff : ℚ) (x : Snapshot) :
    x ∈ qualifyingSnaps hist t cutoff ↔
      x ∈ tickerSnaps hist t ∧ x.snapshot_time ≤ cutoff := by
  rw [qualifyingSnaps, List.mem_filter, (sortByTime_perm _).mem_iff]
  simp

/-- C3: with no (or empty) history, compute_probability_changes sets every
row's 24h delta to yes_price - previous_yes_price and leaves the 7d delta
undefined; with a non-empty history each row's deltas come from deltaAt at
cutoffs now - 24 and now - 168 hours, where deltaAt is none when no snapshot
of the ticker qualifies at the cutoff and otherwise subtracts the price of a
qualifying snapshot of maximal snapshot_time from the current price. -/
theorem compute_probability_changes_spec (now : ℚ) (df : List MRow) :
    (∀ hist : Option (List Snapshot), (hist = none ∨ hist = some []) →
      ((compute_probability_changes now df hist).map (fun r => r.delta_24h) =
        df.map (fun r => osub r.yes_price r.previous_yes_price) ∧
       (compute_probability_changes now df hist).map (fun r => r.delta_7d) =
        df.map (fun _ => none))) ∧
    (∀ h : List Snapshot, h ≠ [] →
      compute_probability_changes now df (some h) =
        df.map (fun r => { r with delta_24h := deltaAt df h r.ticker (now - 24),
                                  delta_7d := deltaAt df h r.ticker (now - 168) })) ∧
    (∀ (h : List Snapshot) (t : String) (cutoff : ℚ),
      qualifyingSnaps h t cutoff = [] → deltaAt df h t cutoff = none) ∧
    (∀ (h : List Snapshot) (t : String) (cutoff : ℚ),
      qualifyingSnaps h t cutoff ≠ [] →
      ∃ s, s ∈ tickerSnaps h t ∧ s.snapshot_time ≤ cutoff ∧
        (∀ x, x ∈ tickerSnaps h t → x.snapshot_time ≤ cutoff →
          x.snapshot_time ≤ s.snapshot_time) ∧
        deltaAt df h t cutoff = osub (currentPrice df t) s.yes_price) := by
  refine ⟨?_, ?_, ?_, ?_⟩
  · intro hist hcase
    rcases hcase with hn | he
    · subst hn
      constructor <;> simp [compute_probability_changes, List.map_map, Function.comp_def]
    · subst he
      constructor <;> simp [compute_probability_changes, List.map_map, Function.comp_def]
  · intro h hne
    have hie : h.isEmpty = false := by
      cases h
      · exact absurd rfl hne
      · rfl
    simp [compute_probability_changes, hie]
  · intro h t cutoff hq
    by_cases hts : (tickerSnaps h t).isEmpty
    · simp [deltaAt, hts]
    · simp [deltaAt, hts, hq]
  · intro h t cutoff hq
    cases hlast : (qualifyingSnaps h t cutoff).getLast? with
    | none =>
      exact absurd (List.getLast?_eq_none_iff.mp hlast) hq
    | some s =>
      have hsq : s ∈ qualifyingSnaps h t cutoff := getLast?_mem_list _ s hlast
      have hsmem := (mem_qualifying_iff h t cutoff s).mp hsq
      refine ⟨s, hsmem.1, hsmem.2, ?_, ?_⟩
      · intro x hx hxc
        exact getLast_time_max _ (qualifying_sorted h t cutoff) s hlast x
          ((mem_qualifying_iff h t cutoff x).mpr ⟨hx, hxc⟩)
      · have hts : (tickerSnaps h t).isEmpty = false := by
          cases hts2 : tickerSnaps h t with
          | nil =>
            rw [hts2] at hsmem
            cases hsmem.1
          | cons a l => rfl
        simp [deltaAt, hts, hlast]

/-- C3 witness: on the concrete one-row table sampleDf with no history the
24h delta column equals yes_price - previous_yes_price. -/
theorem compute_probability_changes_spec_witness :
    (compute_probability_changes 200 sampleDf none).map (fun r => r.delta_24h) =
      sampleDf.map (fun r => osub r.yes_price r.previous_yes_price) :=
  ((compute_probability_changes_spec 200 sampleDf).1 none (Or.inl rfl)).1

/-- C2 (amended): in the main pipeline (signals.compute_all_signals) a batch
with no historical snapshot table gets volatility NaN on every row, not the
parabola proxy; the 2 p (1 - p) proxy is implemented only by the hex-cell
variant compute_volatility, which applies it to every market unconditionally,
and there a yes_price of 0.5 yields volatility 0.5. -/
theorem no_history_volatility_spec :
    (∀ (std : List ℚ → ℚ) (expQ : ℚ → ℚ) (hasSpreadCol : Bool) (now : ℚ) (df : List MRow),
      (compute_all_signals std expQ hasSpreadCol now df none).map (fun r => r.volatility) =
        df.map (fun _ => none)) ∧
    (∀ df : List MRow, hex_compute_volatility df =
      df.map (fun r => { r with volatility := r.yes_price.map (fun p => 2 * p * (1 - p)) })) ∧
    (hex_compute_volatility [sampleCoinFlip]).map (fun r => r.volatility) = [some 0.5] := by
  refine ⟨?_, fun df => rfl, ?_⟩
  · intro std expQ hasSpreadCol now df
    cases hasSpreadCol <;>
      simp [compute_all_signals, compute_probability_changes, compute_attention_metrics,
        List.map_map, Function.comp_def]
  · norm_num [hex_compute_volatility, sampleCoinFlip]

/-- C2 counterexample: the market sampleCoinFlip (yes_price 0.5,
previous_yes_price 0.5) run through compute_all_signals with no history gets
volatility NaN, not the claimed proxy value 0.5. -/
theorem no_history_volatility_counterexample :
    (compute_all_signals (fun _ => 0) (fun _ => 0) false 0 [sampleCoinFlip] none).map
      (fun r => r.volatility) = [none] ∧
    (none : Option ℚ) ≠ some (2 * (1/2 : ℚ) * (1 - 1/2)) := by
  constructor
  · simp [compute_all_signals, compute_probability_changes, compute_attention_metrics,
      sampleCoinFlip]
  · simp

/-- C9: empty input is a first-class case at every stage: an empty raw batch
normalizes to an empty table, rank_top_stories on an empty table returns an
empty table for every n, organize_into_sections on an empty table returns
Top Stories plus the five category sections all empty, and
identify_developing_stories on an empty table returns an empty table for all
thresholds. -/
theorem empty_input_spec :
    normalize_markets [] = [] ∧
    (∀ n : ℕ, rank_top_stories [] n = []) ∧
    (∀ hasNews : Bool, organize_into_sections hasNews [] =
      [("Top Stories", []), ("Politics", []), ("Business", []), ("Tech", []),
       ("Culture", []), ("Sports", [])]) ∧
    (∀ vt dt : ℚ, identify_developing_stories [] vt dt = []) := by
  refine ⟨rfl, fun n => rfl, ?_, fun vt dt => rfl⟩
  intro hasNews
  simp [organize_into_sections, CATEGORY_MAPPINGS]
